import Mathlib

/-!
# RunLoop (windows/runner/run_loop.cpp): a shallow embedding

The run loop hosts a `std::set<flutter::FlutterEngine*>` and repeats
`ProcessFlutterEvents(); if empty then break; MsgWaitForMultipleObjects(timeout)`.

Modelling choices, each read off the source:

* An engine pointer is a natural number (its address).  The `std::set` is the
  strictly ascending list of its keys, which is also its iteration order.
* `std::chrono::nanoseconds`, `milliseconds` and `steady_clock::time_point` all
  have a signed 64-bit representation; arithmetic on them is done in `Int` and
  reduced to the two's-complement range by `wrap64`.  `uint64_t` to `int64_t`
  is the same reduction, and `static_cast<DWORD>` is reduction modulo `2^32`.
* `ProcessMessages` is external.  Per call it supplies the returned
  `uint64_t`, the engines it unregisters while it runs, and the two clock
  samples the loop body takes afterwards (`Reply`).  Calls of
  `RegisterFlutterInstance` from inside `ProcessMessages` are not modelled.
* A range-for over the live `std::set` holds an iterator to the current
  element.  Erasing that element invalidates the iterator, and the following
  increment has no defined behaviour: the pass then yields `none`.
-/

namespace RunLoop

/-- Address of a `flutter::FlutterEngine`. -/
abbrev Engine := Nat

/-- Content of `std::set<flutter::FlutterEngine*>`: keys in ascending order. -/
abbrev InstanceSet := List Engine

/-- Invariant of `std::set`: keys strictly ascending (so also unique). -/
def WellFormed (s : InstanceSet) : Prop := List.Sorted (fun a b => a < b) s

instance (s : InstanceSet) : Decidable (WellFormed s) := by
  unfold WellFormed; infer_instance

/-- Body of `std::set::insert(key)`: ordered insertion, an equal key is kept once. -/
def setInsert (key : Engine) : InstanceSet → InstanceSet
  | [] => [key]
  | x :: xs =>
    if key < x then key :: x :: xs
    else if key = x then x :: xs
    else x :: setInsert key xs

/-- Body of `std::set::erase(key)`: drops the node holding `key`, if any. -/
def setErase (key : Engine) : InstanceSet → InstanceSet
  | [] => []
  | x :: xs => if x = key then xs else x :: setErase key xs

/-- Source: `RunLoop::RegisterFlutterInstance` (run_loop.cpp:38-41). -/
def RegisterFlutterInstance (flutter_instances_ : InstanceSet) (flutter_instance : Engine) :
    InstanceSet :=
  setInsert flutter_instance flutter_instances_

/-- Source: `RunLoop::UnregisterFlutterInstance` (run_loop.cpp:43-46). -/
def UnregisterFlutterInstance (flutter_instances_ : InstanceSet) (flutter_instance : Engine) :
    InstanceSet :=
  setErase flutter_instance flutter_instances_

/-- Reduction of an integer to the signed 64-bit range (two's complement). -/
def wrap64 (x : Int) : Int := (x + 2 ^ 63) % 2 ^ 64 - 2 ^ 63

/-- Value of `std::chrono::nanoseconds::max()`. -/
def nanosecondsMax : Int := 2 ^ 63 - 1

/-- What one call of `flutter_instance->ProcessMessages()` and the clock supply to
one round of the loop body in `ProcessFlutterEvents`. -/
structure Reply where
  /-- The `uint64_t` returned by `ProcessMessages`. -/
  next_task_time : Nat
  /-- Engines passed to `UnregisterFlutterInstance` while `ProcessMessages` runs. -/
  unregisters : List Engine
  /-- Clock sample of run_loop.cpp:57-58, in nanoseconds. -/
  now1 : Int
  /-- Clock sample of run_loop.cpp:69-70, in nanoseconds. -/
  now2 : Int

/-- Source: run_loop.cpp:59-60, `static_cast<int64_t>(next_task_time) -
static_cast<int64_t>(now.count())`. -/
def wait_time (next_task_time : Nat) (now : Int) : Int :=
  wrap64 (wrap64 (next_task_time : Int) - wrap64 now)

/-- Source: run_loop.cpp:51-66, the value of `wait_duration` after the first `if`. -/
def wait_duration (r : Reply) : Int :=
  if r.next_task_time ≠ 0 then
    if wait_time r.next_task_time r.now1 > 0 then wait_time r.next_task_time r.now1 else 0
  else nanosecondsMax

/-- Source: run_loop.cpp:71, `TimePoint(now + wait_duration)`. -/
def event_time (r : Reply) : Int := wrap64 (r.now2 + wait_duration r)

/-- Source: run_loop.cpp:68-75, the update of `next_event_time` by one engine. -/
def updateNextEventTime (next_event_time : Option Int) (r : Reply) : Option Int :=
  if wait_duration r ≠ nanosecondsMax then
    match next_event_time with
    | none => some (event_time r)
    | some v => if event_time r < v then some (event_time r) else some v
  else next_event_time

/-- State of a pass of `ProcessFlutterEvents` when it completes. -/
structure PassResult where
  /-- The set `flutter_instances_` after the pass. -/
  hosted : InstanceSet
  /-- The returned `std::optional<TimePoint>`. -/
  next_event_time : Option Int
  /-- Engines whose `ProcessMessages` was called, in call order. -/
  drained : List Engine
deriving DecidableEq, Repr

/-- The range-for of run_loop.cpp:50-76.  The first list holds the keys the iterator has
not reached yet, in order; callbacks only erase, so the successor of the current node is the
first of them still in the live set.  `none`: the current node was erased under the
iterator. -/
def drainLoop (env : Engine → Reply) :
    List Engine → InstanceSet → Option Int → List Engine → Option PassResult
  | [], live, next_event_time, drained => some ⟨live, next_event_time, drained⟩
  | cur :: rest, live, next_event_time, drained =>
    if cur ∈ live then
      if cur ∈ (env cur).unregisters then none
      else
        drainLoop env rest ((env cur).unregisters.foldl UnregisterFlutterInstance live)
          (updateNextEventTime next_event_time (env cur)) (drained ++ [cur])
    else drainLoop env rest live next_event_time drained

/-- Source: `RunLoop::ProcessFlutterEvents` (run_loop.cpp:48-78). -/
def ProcessFlutterEvents (env : Engine → Reply) (flutter_instances_ : InstanceSet) :
    Option PassResult :=
  drainLoop env flutter_instances_ flutter_instances_ none []

/-- Source: run_loop.cpp:28-33, the `DWORD` handed to `MsgWaitForMultipleObjects`:
`static_cast<DWORD>(max(0ms, duration_cast<milliseconds>(next_flutter_event_time - now)).count())`. -/
def waitTimeout (next_flutter_event_time now : Int) : Nat :=
  ((max 0 (Int.tdiv (wrap64 (next_flutter_event_time - now)) 1000000)) % 2 ^ 32).toNat

/-- Value of the Win32 constant `INFINITE`, the only timeout that blocks without bound. -/
def INFINITE : Nat := 4294967295

/-- Inputs of one iteration of the `while` loop of `Run`. -/
structure IterInput where
  /-- Behaviour of every engine if drained in this iteration. -/
  env : Engine → Reply
  /-- Clock sample of run_loop.cpp:27, in nanoseconds. -/
  now : Int

/-- What one iteration of the `while` loop of `Run` did. -/
structure IterRecord where
  /-- Engines whose `ProcessMessages` was called, in call order. -/
  drained : List Engine
  /-- The set `flutter_instances_` right after `ProcessFlutterEvents`. -/
  hostedAfter : InstanceSet
  /-- The variable `next_flutter_event_time` after run_loop.cpp:17-19. -/
  targetAfter : Int
  /-- Timeouts of the calls of `MsgWaitForMultipleObjects` made, in call order. -/
  waits : List Nat
deriving DecidableEq, Repr

/-- Source: run_loop.cpp:17-19. -/
def adoptTarget (next_flutter_event_time : Int) (next_event_time : Option Int) : Int :=
  match next_event_time with
  | some v => v
  | none => next_flutter_event_time

/-- One iteration of the `while` loop of `Run` (run_loop.cpp:16-34) from the set
`flutter_instances_` and the value of `next_flutter_event_time`.  The boolean is
`keep_running` afterwards. -/
def RunIter (i : IterInput) (flutter_instances_ : InstanceSet) (next_flutter_event_time : Int) :
    Option (IterRecord × Bool) :=
  match ProcessFlutterEvents i.env flutter_instances_ with
  | none => none
  | some p =>
    if p.hosted.isEmpty then
      some (⟨p.drained, p.hosted, adoptTarget next_flutter_event_time p.next_event_time, []⟩,
        false)
    else
      some (⟨p.drained, p.hosted, adoptTarget next_flutter_event_time p.next_event_time,
          [waitTimeout (adoptTarget next_flutter_event_time p.next_event_time) i.now]⟩, true)

/-- The `while` loop of `Run` over the inputs of its successive iterations.  Result: the
record of every iteration run, and whether `Run` returned (`true`) or is still looping
when the inputs end (`false`). -/
def RunFrom : List IterInput → InstanceSet → Int → Option (List IterRecord × Bool)
  | [], _, _ => some ([], false)
  | i :: rest, flutter_instances_, next_flutter_event_time =>
    match RunIter i flutter_instances_ next_flutter_event_time with
    | none => none
    | some (r, false) => some ([r], true)
    | some (r, true) =>
      match RunFrom rest r.hostedAfter r.targetAfter with
      | none => none
      | some (rs, returned) => some (r :: rs, returned)

/-- Source: `RunLoop::Run` (run_loop.cpp:11-36); `start` is the clock sample of line 14. -/
def Run (start : Int) (inputs : List IterInput) (flutter_instances_ : InstanceSet) :
    Option (List IterRecord × Bool) :=
  RunFrom inputs flutter_instances_ start


/-- The set `flutter_instances_` and the variable `next_flutter_event_time` with which the
next iteration starts, after the iterations recorded in the list. -/
def stateAfter : InstanceSet → Int → List IterRecord → InstanceSet × Int
  | flutter_instances_, next_flutter_event_time, [] =>
    (flutter_instances_, next_flutter_event_time)
  | _, _, r :: rs => stateAfter r.hostedAfter r.targetAfter rs

/-! ### Concrete inputs used to exercise the model -/

/-- An engine that reports no pending task and unregisters nothing; the clock reads 0. -/
def idleReply : Reply := ⟨0, [], 0, 0⟩

/-- An iteration in which every engine is idle and line 27 reads the clock as `now`. -/
def idleInput (now : Int) : IterInput := ⟨fun _ => idleReply, now⟩

/-- Every engine reports the timestamp 5 while the clock reads 100: a task already due. -/
def overdueEnv : Engine → Reply := fun _ => ⟨5, [], 100, 100⟩

/-- Engine 1 reports 0; every other engine reports `2^63 - 1` while the clock reads 0, so
that its `wait_time` is exactly `nanoseconds::max()`. -/
def sentinelEnv : Engine → Reply := fun e =>
  if e = 1 then ⟨0, [], 0, 0⟩ else ⟨9223372036854775807, [], 0, 0⟩

/-- Engine 1 reports the past timestamp 5 with the clock at 10; every other engine reports
`2^63 - 2` with the clock read as 10 and then as 20. -/
def overflowEnv : Engine → Reply := fun e =>
  if e = 1 then ⟨5, [], 10, 10⟩ else ⟨9223372036854775806, [], 10, 20⟩

/-- Every engine unregisters itself inside its own `ProcessMessages` and reports 0. -/
def selfUnregisterEnv : Engine → Reply := fun e => ⟨0, [e], 0, 0⟩

/-- Engine 1 reports 0 and engine 2 reports 500 with the clock at 100 throughout. -/
def oneTimerEnv : Engine → Reply := fun e =>
  if e = 1 then ⟨0, [], 100, 100⟩ else ⟨500, [], 100, 100⟩

/-- Engine 1 reports 300 and every other engine 500, with the clock at 100 throughout. -/
def twoTimersEnv : Engine → Reply := fun e =>
  if e = 1 then ⟨300, [], 100, 100⟩ else ⟨500, [], 100, 100⟩

/-! ## The hosted set -/

theorem mem_setInsert (e x : Engine) (s : InstanceSet) :
    x ∈ setInsert e s ↔ x = e ∨ x ∈ s := by
  induction s with
  | nil => simp [setInsert]
  | cons y ys ih =>
    unfold setInsert
    split_ifs with h1 h2
    · simp
    · subst h2; simp
    · simp only [List.mem_cons, ih]; tauto

theorem wellFormed_setInsert (e : Engine) (s : InstanceSet) (hs : WellFormed s) :
    WellFormed (setInsert e s) := by
  unfold WellFormed at *
  induction s with
  | nil => simp [setInsert]
  | cons y ys ih =>
    have hy := List.sorted_cons.mp hs
    unfold setInsert
    split_ifs with h1 h2
    · refine List.sorted_cons.mpr ⟨?_, hs⟩
      intro b hb
      rcases List.mem_cons.mp hb with rfl | hb
      · exact h1
      · exact lt_trans h1 (hy.1 b hb)
    · exact hs
    · refine List.sorted_cons.mpr ⟨?_, ih hy.2⟩
      intro b hb
      rcases (mem_setInsert e b ys).mp hb with rfl | hb
      · exact lt_of_le_of_ne (not_lt.mp h1) (fun h => h2 h.symm)
      · exact hy.1 b hb

theorem setInsert_of_mem (e : Engine) (s : InstanceSet) (hs : WellFormed s) (he : e ∈ s) :
    setInsert e s = s := by
  unfold WellFormed at *
  induction s with
  | nil => simp at he
  | cons y ys ih =>
    have hy := List.sorted_cons.mp hs
    unfold setInsert
    rcases List.mem_cons.mp he with rfl | he
    · simp
    · have hlt : y < e := hy.1 e he
      have h1 : ¬ e < y := lt_asymm hlt
      have h2 : ¬ e = y := ne_of_gt hlt
      simp [h1, h2, ih hy.2 he]

theorem setErase_of_not_mem (e : Engine) (s : InstanceSet) (he : e ∉ s) :
    setErase e s = s := by
  induction s with
  | nil => rfl
  | cons y ys ih =>
    have h1 : ¬ y = e := fun h => he (by simp [h])
    have h2 : e ∉ ys := fun h => he (by simp [h])
    simp [setErase, h1, ih h2]

theorem mem_setErase (e x : Engine) (s : InstanceSet) (hs : WellFormed s) :
    x ∈ setErase e s ↔ x ≠ e ∧ x ∈ s := by
  unfold WellFormed at *
  induction s with
  | nil => simp [setErase]
  | cons y ys ih =>
    have hy := List.sorted_cons.mp hs
    unfold setErase
    split_ifs with h1
    · subst h1
      constructor
      · intro hx
        have hyx : y < x := hy.1 x hx
        exact ⟨ne_of_gt hyx, by simp [hx]⟩
      · rintro ⟨hne, hx⟩
        rcases List.mem_cons.mp hx with rfl | hx
        · exact absurd rfl hne
        · exact hx
    · simp only [List.mem_cons, ih hy.2]
      constructor
      · rintro (rfl | ⟨hne, hx⟩)
        · exact ⟨h1, Or.inl rfl⟩
        · exact ⟨hne, Or.inr hx⟩
      · rintro ⟨hne, rfl | hx⟩
        · exact Or.inl rfl
        · exact Or.inr ⟨hne, hx⟩

theorem mem_of_mem_setErase (e x : Engine) (s : InstanceSet) (hx : x ∈ setErase e s) :
    x ∈ s := by
  induction s with
  | nil => simp [setErase] at hx
  | cons y ys ih =>
    unfold setErase at hx
    split_ifs at hx with h1
    · simp [hx]
    · rcases List.mem_cons.mp hx with rfl | hx
      · simp
      · simp [ih hx]

theorem wellFormed_setErase (e : Engine) (s : InstanceSet) (hs : WellFormed s) :
    WellFormed (setErase e s) := by
  unfold WellFormed at *
  induction s with
  | nil => simp [setErase]
  | cons y ys ih =>
    have hy := List.sorted_cons.mp hs
    unfold setErase
    split_ifs with h1
    · exact hy.2
    · refine List.sorted_cons.mpr ⟨?_, ih hy.2⟩
      intro b hb
      exact hy.1 b (mem_of_mem_setErase e b ys hb)

theorem setErase_setInsert (e : Engine) (s : InstanceSet) (hs : WellFormed s) (he : e ∉ s) :
    setErase e (setInsert e s) = s := by
  unfold WellFormed at *
  induction s with
  | nil => simp [setInsert, setErase]
  | cons y ys ih =>
    have hy := List.sorted_cons.mp hs
    have h1 : ¬ e = y := fun h => he (by simp [h])
    have h2 : e ∉ ys := fun h => he (by simp [h])
    have h3 : ¬ y = e := fun h => h1 h.symm
    unfold setInsert
    split_ifs with h
    · simp [setErase]
    · simp [setErase, h3, ih hy.2 h2]

/-- Two well-formed sets with the same members are the same list. -/
theorem wellFormed_ext (s t : InstanceSet) (hs : WellFormed s) (ht : WellFormed t)
    (h : ∀ x, x ∈ s ↔ x ∈ t) : s = t := by
  unfold WellFormed at *
  refine List.eq_of_perm_of_sorted ?_ hs ht
  exact (List.perm_ext_iff_of_nodup hs.nodup ht.nodup).mpr h

/-- C9. `RegisterFlutterInstance` and `UnregisterFlutterInstance` are set insertion and set
removal on a well-formed hosted set `S`: the result is again well formed, its members are
those of `S ∪ {e}`, respectively `S \ {e}`; registering a present engine and unregistering an
absent one leave `S` unchanged, each operation is idempotent, membership of every other
engine is unaffected, and unregistering after registering a fresh engine restores `S`. -/
theorem register_unregister_set_semantics (S : InstanceSet) (e : Engine) (hS : WellFormed S) :
    (WellFormed (RegisterFlutterInstance S e)
      ∧ ∀ x, x ∈ RegisterFlutterInstance S e ↔ x ∈ S ∨ x = e)
    ∧ (WellFormed (UnregisterFlutterInstance S e)
      ∧ ∀ x, x ∈ UnregisterFlutterInstance S e ↔ x ∈ S ∧ x ≠ e)
    ∧ (e ∈ S → RegisterFlutterInstance S e = S)
    ∧ (e ∉ S → UnregisterFlutterInstance S e = S)
    ∧ RegisterFlutterInstance (RegisterFlutterInstance S e) e = RegisterFlutterInstance S e
    ∧ UnregisterFlutterInstance (UnregisterFlutterInstance S e) e
        = UnregisterFlutterInstance S e
    ∧ (∀ x, x ≠ e → ((x ∈ RegisterFlutterInstance S e ↔ x ∈ S)
        ∧ (x ∈ UnregisterFlutterInstance S e ↔ x ∈ S)))
    ∧ (e ∉ S → UnregisterFlutterInstance (RegisterFlutterInstance S e) e = S) := by
  unfold RegisterFlutterInstance UnregisterFlutterInstance
  have hI := wellFormed_setInsert e S hS
  have hE := wellFormed_setErase e S hS
  refine ⟨⟨hI, ?_⟩, ⟨hE, ?_⟩, setInsert_of_mem e S hS, setErase_of_not_mem e S, ?_, ?_, ?_,
    setErase_setInsert e S hS⟩
  · intro x; rw [mem_setInsert]; tauto
  · intro x; rw [mem_setErase e x S hS]; tauto
  · exact setInsert_of_mem e _ hI ((mem_setInsert e e S).mpr (Or.inl rfl))
  · apply setErase_of_not_mem
    intro h
    exact ((mem_setErase e e S hS).mp h).1 rfl
  · intro x hx
    rw [mem_setInsert, mem_setErase e x S hS]
    tauto

/-- Instance of C9 at the hosted set of engines 1 and 3 and the engine 2. -/
theorem register_unregister_set_semantics_witness :
    WellFormed [1, 3] ∧
    ((WellFormed (RegisterFlutterInstance [1, 3] 2)
      ∧ ∀ x, x ∈ RegisterFlutterInstance [1, 3] 2 ↔ x ∈ [1, 3] ∨ x = 2)
    ∧ (WellFormed (UnregisterFlutterInstance [1, 3] 2)
      ∧ ∀ x, x ∈ UnregisterFlutterInstance [1, 3] 2 ↔ x ∈ [1, 3] ∧ x ≠ 2)
    ∧ (2 ∈ [1, 3] → RegisterFlutterInstance [1, 3] 2 = [1, 3])
    ∧ (2 ∉ [1, 3] → UnregisterFlutterInstance [1, 3] 2 = [1, 3])
    ∧ RegisterFlutterInstance (RegisterFlutterInstance [1, 3] 2) 2
        = RegisterFlutterInstance [1, 3] 2
    ∧ UnregisterFlutterInstance (UnregisterFlutterInstance [1, 3] 2) 2
        = UnregisterFlutterInstance [1, 3] 2
    ∧ (∀ x, x ≠ 2 → ((x ∈ RegisterFlutterInstance [1, 3] 2 ↔ x ∈ [1, 3])
        ∧ (x ∈ UnregisterFlutterInstance [1, 3] 2 ↔ x ∈ [1, 3])))
    ∧ (2 ∉ [1, 3] → UnregisterFlutterInstance (RegisterFlutterInstance [1, 3] 2) 2 = [1, 3])) :=
  ⟨by decide, register_unregister_set_semantics [1, 3] 2 (by decide)⟩

/-! ## The pass over the hosted set -/

theorem foldl_unregister_of_not_mem (us : List Engine) (live : InstanceSet)
    (h : ∀ x ∈ us, x ∉ live) : us.foldl UnregisterFlutterInstance live = live := by
  induction us with
  | nil => rfl
  | cons u us ih =>
    have hu : UnregisterFlutterInstance live u = live :=
      setErase_of_not_mem u live (h u (by simp))
    simp only [List.foldl_cons, hu]
    exact ih (fun x hx => h x (by simp [hx]))

theorem mem_of_mem_foldl_unregister (us : List Engine) (live : InstanceSet) (x : Engine)
    (h : x ∈ us.foldl UnregisterFlutterInstance live) : x ∈ live := by
  induction us generalizing live with
  | nil => exact h
  | cons u us ih =>
    simp only [List.foldl_cons] at h
    exact mem_of_mem_setErase u x live (ih _ h)

/-- Shape of every completed pass: the engines drained form a sublist of the pending keys,
none of them unregistered itself, the result folds `updateNextEventTime` over their replies
in order, and the set only shrank. -/
theorem drainLoop_some (env : Engine → Reply) (pending : List Engine) (live : InstanceSet)
    (nxt : Option Int) (dr : List Engine) (p : PassResult)
    (h : drainLoop env pending live nxt dr = some p) :
    ∃ vis : List Engine, vis.Sublist pending ∧ p.drained = dr ++ vis
      ∧ p.next_event_time = (vis.map env).foldl updateNextEventTime nxt
      ∧ (∀ e ∈ vis, e ∉ (env e).unregisters)
      ∧ (∀ x ∈ p.hosted, x ∈ live) := by
  induction pending generalizing live nxt dr with
  | nil =>
    simp only [drainLoop, Option.some.injEq] at h
    subst h
    exact ⟨[], List.Sublist.refl _, by simp, rfl, by simp, fun x hx => hx⟩
  | cons cur rest ih =>
    unfold drainLoop at h
    split_ifs at h with h1 h2
    · obtain ⟨vis, hsub, hd, hn, hu, hm⟩ := ih _ _ _ h
      refine ⟨cur :: vis, hsub.cons₂ cur, by simp [hd], by simp [hn], ?_, ?_⟩
      · intro e he
        rcases List.mem_cons.mp he with rfl | he
        · exact h2
        · exact hu e he
      · intro x hx
        exact mem_of_mem_foldl_unregister _ _ _ (hm x hx)
    · obtain ⟨vis, hsub, hd, hn, hu, hm⟩ := ih _ _ _ h
      exact ⟨vis, hsub.cons cur, hd, hn, hu, hm⟩

/-- A pass in which no callback unregisters a hosted engine drains every pending key, in
order, and leaves the set as it was. -/
theorem drainLoop_no_mutation (env : Engine → Reply) (pending : List Engine)
    (live : InstanceSet) (nxt : Option Int) (dr : List Engine)
    (hp : ∀ e ∈ pending, e ∈ live)
    (hu : ∀ e ∈ pending, ∀ x ∈ (env e).unregisters, x ∉ live) :
    drainLoop env pending live nxt dr
      = some ⟨live, (pending.map env).foldl updateNextEventTime nxt, dr ++ pending⟩ := by
  induction pending generalizing nxt dr with
  | nil => simp [drainLoop]
  | cons cur rest ih =>
    have hc : cur ∈ live := hp cur (by simp)
    have hn : cur ∉ (env cur).unregisters := fun hx => hu cur (by simp) cur hx hc
    have hf : (env cur).unregisters.foldl UnregisterFlutterInstance live = live :=
      foldl_unregister_of_not_mem _ _ (hu cur (by simp))
    unfold drainLoop
    rw [if_pos hc, if_neg hn, hf,
      ih _ _ (fun e he => hp e (by simp [he])) (fun e he => hu e (by simp [he]))]
    simp

/-- The iterator is invalidated as soon as the engine being drained unregisters itself. -/
theorem drainLoop_self_unregister (env : Engine → Reply) (cur : Engine) (rest : List Engine)
    (live : InstanceSet) (nxt : Option Int) (dr : List Engine)
    (hc : cur ∈ live) (hs : cur ∈ (env cur).unregisters) :
    drainLoop env (cur :: rest) live nxt dr = none := by
  unfold drainLoop
  rw [if_pos hc, if_pos hs]

theorem ProcessFlutterEvents_some (env : Engine → Reply) (S : InstanceSet) (p : PassResult)
    (h : ProcessFlutterEvents env S = some p) :
    p.drained.Sublist S
      ∧ p.next_event_time = (p.drained.map env).foldl updateNextEventTime none
      ∧ (∀ e ∈ p.drained, e ∉ (env e).unregisters)
      ∧ (∀ x ∈ p.hosted, x ∈ S) := by
  obtain ⟨vis, hsub, hd, hn, hu, hm⟩ := drainLoop_some env S S none [] p h
  simp only [List.nil_append] at hd
  subst hd
  exact ⟨hsub, hn, hu, hm⟩

theorem ProcessFlutterEvents_no_mutation (env : Engine → Reply) (S : InstanceSet)
    (hu : ∀ e ∈ S, ∀ x ∈ (env e).unregisters, x ∉ S) :
    ProcessFlutterEvents env S
      = some ⟨S, (S.map env).foldl updateNextEventTime none, S⟩ := by
  unfold ProcessFlutterEvents
  rw [drainLoop_no_mutation env S S none [] (fun e he => he) hu]
  simp

/-! ## The fold of `updateNextEventTime` is a minimum -/

theorem foldl_update_none_iff (rs : List Reply) (nxt : Option Int) :
    rs.foldl updateNextEventTime nxt = none
      ↔ nxt = none ∧ ∀ r ∈ rs, wait_duration r = nanosecondsMax := by
  induction rs generalizing nxt with
  | nil => simp
  | cons r rs ih =>
    simp only [List.foldl_cons, ih, List.mem_cons, forall_eq_or_imp]
    unfold updateNextEventTime
    by_cases hw : wait_duration r = nanosecondsMax
    · simp [hw]
    · cases nxt with
      | none => simp [hw]
      | some v => simp only [ne_eq, hw, not_false_eq_true, if_true]; split_ifs <;> simp

theorem foldl_update_some (rs : List Reply) (nxt : Option Int) (m : Int)
    (h : rs.foldl updateNextEventTime nxt = some m) :
    (nxt = some m ∨ ∃ r ∈ rs, wait_duration r ≠ nanosecondsMax ∧ event_time r = m)
      ∧ (∀ v, nxt = some v → m ≤ v)
      ∧ (∀ r ∈ rs, wait_duration r ≠ nanosecondsMax → m ≤ event_time r) := by
  induction rs generalizing nxt with
  | nil =>
    simp only [List.foldl_nil] at h
    subst h
    simp
  | cons r rs ih =>
    simp only [List.foldl_cons] at h
    obtain ⟨h1, h2, h3⟩ := ih _ h
    by_cases hw : wait_duration r = nanosecondsMax
    · have hu : updateNextEventTime nxt r = nxt := by simp [updateNextEventTime, hw]
      rw [hu] at h1 h2
      refine ⟨?_, h2, ?_⟩
      · rcases h1 with h1 | ⟨r', hr', hw', he'⟩
        · exact Or.inl h1
        · exact Or.inr ⟨r', by simp [hr'], hw', he'⟩
      · intro r' hr' hw'
        rcases List.mem_cons.mp hr' with rfl | hr'
        · exact absurd hw hw'
        · exact h3 r' hr' hw'
    · cases nxt with
      | none =>
        have hu : updateNextEventTime none r = some (event_time r) := by
          simp [updateNextEventTime, hw]
        rw [hu] at h1 h2
        refine ⟨Or.inr ?_, by simp, ?_⟩
        · rcases h1 with h1 | ⟨r', hr', hw', he'⟩
          · exact ⟨r, by simp, hw, (Option.some.inj h1)⟩
          · exact ⟨r', by simp [hr'], hw', he'⟩
        · intro r' hr' hw'
          rcases List.mem_cons.mp hr' with rfl | hr'
          · exact h2 _ rfl
          · exact h3 r' hr' hw'
      | some v =>
        by_cases hlt : event_time r < v
        · have hu : updateNextEventTime (some v) r = some (event_time r) := by
            simp [updateNextEventTime, hw, hlt]
          rw [hu] at h1 h2
          have hm : m ≤ event_time r := h2 _ rfl
          refine ⟨Or.inr ?_, ?_, ?_⟩
          · rcases h1 with h1 | ⟨r', hr', hw', he'⟩
            · exact ⟨r, by simp, hw, (Option.some.inj h1)⟩
            · exact ⟨r', by simp [hr'], hw', he'⟩
          · intro v' hv'
            have : v = v' := Option.some.inj hv'
            omega
          · intro r' hr' hw'
            rcases List.mem_cons.mp hr' with rfl | hr'
            · exact hm
            · exact h3 r' hr' hw'
        · have hu : updateNextEventTime (some v) r = some v := by
            simp [updateNextEventTime, hw, hlt]
          rw [hu] at h1 h2
          have hm : m ≤ v := h2 _ rfl
          refine ⟨?_, ?_, ?_⟩
          · rcases h1 with h1 | ⟨r', hr', hw', he'⟩
            · exact Or.inl h1
            · exact Or.inr ⟨r', by simp [hr'], hw', he'⟩
          · intro v' hv'
            have : v = v' := Option.some.inj hv'
            omega
          · intro r' hr' hw'
            rcases List.mem_cons.mp hr' with rfl | hr'
            · omega
            · exact h3 r' hr' hw'

theorem mem_setErase_of_ne (e x : Engine) (s : InstanceSet) (hx : x ∈ s) (hne : x ≠ e) :
    x ∈ setErase e s := by
  induction s with
  | nil => simp at hx
  | cons y ys ih =>
    unfold setErase
    split_ifs with h1
    · rcases List.mem_cons.mp hx with rfl | hx
      · exact absurd h1 hne
      · exact hx
    · rcases List.mem_cons.mp hx with rfl | hx
      · simp
      · simp [ih hx]

theorem mem_foldl_unregister_of_not_mem (us : List Engine) (live : InstanceSet) (x : Engine)
    (hx : x ∈ live) (hn : x ∉ us) : x ∈ us.foldl UnregisterFlutterInstance live := by
  induction us generalizing live with
  | nil => exact hx
  | cons u us ih =>
    simp only [List.foldl_cons]
    apply ih
    · exact mem_setErase_of_ne u x live hx (fun h => hn (by simp [h]))
    · exact fun h => hn (by simp [h])

theorem drainLoop_keeps_nonempty (env : Engine → Reply) (pending : List Engine)
    (live : InstanceSet) (nxt : Option Int) (dr : List Engine) (p : PassResult)
    (h : drainLoop env pending live nxt dr = some p) (hl : live ≠ []) : p.hosted ≠ [] := by
  induction pending generalizing live nxt dr with
  | nil =>
    simp only [drainLoop, Option.some.injEq] at h
    subst h
    exact hl
  | cons cur rest ih =>
    unfold drainLoop at h
    split_ifs at h with h1 h2
    · exact ih _ _ _ h (List.ne_nil_of_mem (mem_foldl_unregister_of_not_mem _ _ cur h1 h2))
    · exact ih _ _ _ h hl

/-- A completed pass over a non-empty set leaves it non-empty: the engine drained last can
only have been erased by itself, which invalidates the iterator. -/
theorem completed_pass_keeps_set_nonempty (env : Engine → Reply) (S : InstanceSet)
    (p : PassResult) (h : ProcessFlutterEvents env S = some p) (hS : S ≠ []) :
    p.hosted ≠ [] :=
  drainLoop_keeps_nonempty env S S none [] p h hS

/-! ## 64-bit arithmetic -/

theorem wrap64_of_range (x : Int) (h1 : -2 ^ 63 ≤ x) (h2 : x < 2 ^ 63) : wrap64 x = x := by
  unfold wrap64
  omega

theorem wrap64_range (x : Int) : -2 ^ 63 ≤ wrap64 x ∧ wrap64 x < 2 ^ 63 := by
  unfold wrap64
  omega

theorem wait_duration_zero_report (r : Reply) (h : r.next_task_time = 0) :
    wait_duration r = nanosecondsMax := by
  simp [wait_duration, h]

theorem wait_duration_nonneg (r : Reply) : 0 ≤ wait_duration r := by
  unfold wait_duration nanosecondsMax
  split_ifs <;> omega

theorem wait_time_of_range (T : Nat) (N : Int) (hT : (T : Int) < 2 ^ 63) (hN : -2 ^ 63 ≤ N)
    (hN' : N < 2 ^ 63) (hd : (T : Int) - N < 2 ^ 63) : wait_time T N = (T : Int) - N := by
  unfold wait_time
  rw [wrap64_of_range (T : Int) (by omega) hT, wrap64_of_range N hN hN',
    wrap64_of_range _ (by omega) hd]

theorem waitTimeout_lt (t now : Int) : waitTimeout t now < 2 ^ 32 := by
  unfold waitTimeout
  omega

theorem waitTimeout_of_le (t now : Int) (h : t ≤ now) (h' : -2 ^ 63 ≤ t - now) :
    waitTimeout t now = 0 := by
  unfold waitTimeout
  rw [wrap64_of_range _ h' (by omega)]
  have h0 : Int.tdiv (t - now) 1000000 ≤ 0 := by
    have hn : 0 ≤ (-(t - now)).tdiv 1000000 := Int.tdiv_nonneg (by omega) (by omega)
    rw [Int.neg_tdiv] at hn
    omega
  rw [max_eq_left h0]
  rfl

theorem waitTimeout_of_range (t now : Int) (h1 : -2 ^ 63 ≤ t - now) (h2 : t - now < 2 ^ 63) :
    (waitTimeout t now : Int) = (max 0 (Int.tdiv (t - now) 1000000)) % 2 ^ 32 := by
  unfold waitTimeout
  rw [wrap64_of_range _ h1 h2]
  apply Int.toNat_of_nonneg
  omega

/-! ## The loop of `Run` -/

theorem RunIter_of_pass_empty (i : IterInput) (S : InstanceSet) (t : Int) (p : PassResult)
    (hp : ProcessFlutterEvents i.env S = some p) (he : p.hosted = []) :
    RunIter i S t
      = some (⟨p.drained, p.hosted, adoptTarget t p.next_event_time, []⟩, false) := by
  unfold RunIter
  rw [hp]
  simp [he]

theorem RunIter_of_pass_nonempty (i : IterInput) (S : InstanceSet) (t : Int) (p : PassResult)
    (hp : ProcessFlutterEvents i.env S = some p) (he : p.hosted ≠ []) :
    RunIter i S t
      = some (⟨p.drained, p.hosted, adoptTarget t p.next_event_time,
          [waitTimeout (adoptTarget t p.next_event_time) i.now]⟩, true) := by
  unfold RunIter
  rw [hp]
  simp [he]

theorem RunIter_of_pass_none (i : IterInput) (S : InstanceSet) (t : Int)
    (hp : ProcessFlutterEvents i.env S = none) : RunIter i S t = none := by
  unfold RunIter
  rw [hp]

/-- Every completed iteration comes from a completed pass. -/
theorem RunIter_some (i : IterInput) (S : InstanceSet) (t : Int) (r : IterRecord)
    (keep : Bool) (h : RunIter i S t = some (r, keep)) :
    ∃ p, ProcessFlutterEvents i.env S = some p
      ∧ r.drained = p.drained ∧ r.hostedAfter = p.hosted
      ∧ r.targetAfter = adoptTarget t p.next_event_time
      ∧ (keep = false → p.hosted = [] ∧ r.waits = [])
      ∧ (keep = true → p.hosted ≠ [] ∧ r.waits = [waitTimeout r.targetAfter i.now]) := by
  cases hp : ProcessFlutterEvents i.env S with
  | none => rw [RunIter_of_pass_none i S t hp] at h; exact absurd h (by simp)
  | some p =>
    refine ⟨p, rfl, ?_⟩
    by_cases he : p.hosted = []
    · rw [RunIter_of_pass_empty i S t p hp he] at h
      simp only [Option.some.injEq, Prod.mk.injEq] at h
      obtain ⟨h1, h2⟩ := h
      subst h1 h2
      simp [he]
    · rw [RunIter_of_pass_nonempty i S t p hp he] at h
      simp only [Option.some.injEq, Prod.mk.injEq] at h
      obtain ⟨h1, h2⟩ := h
      subst h1 h2
      simp [he]

theorem RunFrom_cons_of_none (i : IterInput) (rest : List IterInput) (S : InstanceSet)
    (t : Int) (hi : RunIter i S t = none) : RunFrom (i :: rest) S t = none := by
  rw [RunFrom, hi]

theorem RunFrom_cons_of_return (i : IterInput) (rest : List IterInput) (S : InstanceSet)
    (t : Int) (r : IterRecord) (hi : RunIter i S t = some (r, false)) :
    RunFrom (i :: rest) S t = some ([r], true) := by
  rw [RunFrom, hi]

theorem RunFrom_cons_of_keep (i : IterInput) (rest : List IterInput) (S : InstanceSet)
    (t : Int) (r : IterRecord) (hi : RunIter i S t = some (r, true)) :
    RunFrom (i :: rest) S t
      = match RunFrom rest r.hostedAfter r.targetAfter with
        | none => none
        | some (rs, returned) => some (r :: rs, returned) := by
  rw [RunFrom, hi]

/-- Running on after iterations that left the loop alive. -/
theorem RunFrom_append (pre post : List IterInput) (S : InstanceSet) (t : Int)
    (recs : List IterRecord) (h : RunFrom pre S t = some (recs, false)) :
    RunFrom (pre ++ post) S t
      = match RunFrom post (stateAfter S t recs).1 (stateAfter S t recs).2 with
        | none => none
        | some (rs, returned) => some (recs ++ rs, returned) := by
  induction pre generalizing S t recs with
  | nil =>
    simp only [RunFrom, Option.some.injEq, Prod.mk.injEq] at h
    obtain ⟨h1, -⟩ := h
    subst h1
    simp only [List.nil_append, stateAfter]
    cases RunFrom post S t with
    | none => rfl
    | some q => rfl
  | cons i pre ih =>
    simp only [List.cons_append]
    cases hi : RunIter i S t with
    | none => rw [RunFrom_cons_of_none i pre S t hi] at h; exact absurd h (by simp)
    | some q =>
      obtain ⟨r, keep⟩ := q
      cases keep with
      | false => rw [RunFrom_cons_of_return i pre S t r hi] at h; simp at h
      | true =>
        rw [RunFrom_cons_of_keep i pre S t r hi] at h
        rw [RunFrom_cons_of_keep i (pre ++ post) S t r hi]
        cases hr : RunFrom pre r.hostedAfter r.targetAfter with
        | none => rw [hr] at h; exact absurd h (by simp)
        | some q' =>
          obtain ⟨rs, ret⟩ := q'
          rw [hr] at h
          simp only [Option.some.injEq, Prod.mk.injEq] at h
          obtain ⟨h1, h2⟩ := h
          subst h1 h2
          rw [ih _ _ _ hr]
          simp only [stateAfter]
          cases RunFrom post (stateAfter r.hostedAfter r.targetAfter rs).1
              (stateAfter r.hostedAfter r.targetAfter rs).2 with
          | none => rfl
          | some q2 => rfl

theorem RunFrom_length (inputs : List IterInput) (S : InstanceSet) (t : Int)
    (recs : List IterRecord) (h : RunFrom inputs S t = some (recs, false)) :
    recs.length = inputs.length := by
  induction inputs generalizing S t recs with
  | nil =>
    simp only [RunFrom, Option.some.injEq, Prod.mk.injEq] at h
    simp [← h.1]
  | cons i rest ih =>
    unfold RunFrom at h
    cases hi : RunIter i S t with
    | none => rw [hi] at h; exact absurd h (by simp)
    | some q =>
      obtain ⟨r, keep⟩ := q
      rw [hi] at h
      cases keep with
      | false => simp at h
      | true =>
        simp only at h
        cases hr : RunFrom rest r.hostedAfter r.targetAfter with
        | none => rw [hr] at h; exact absurd h (by simp)
        | some q' =>
          obtain ⟨rs, ret⟩ := q'
          rw [hr] at h
          simp only [Option.some.injEq, Prod.mk.injEq] at h
          obtain ⟨h1, h2⟩ := h
          subst h1 h2
          simp [ih _ _ _ hr]

/-- A run of at least one iteration records at least one iteration. -/
theorem RunFrom_cons_length (i : IterInput) (rest : List IterInput) (S : InstanceSet) (t : Int)
    (recs : List IterRecord) (ret : Bool) (h : RunFrom (i :: rest) S t = some (recs, ret)) :
    1 ≤ recs.length := by
  unfold RunFrom at h
  cases hi : RunIter i S t with
  | none => rw [hi] at h; exact absurd h (by simp)
  | some q =>
    obtain ⟨r, keep⟩ := q
    rw [hi] at h
    cases keep with
    | false =>
      simp only [Option.some.injEq, Prod.mk.injEq] at h
      simp [← h.1]
    | true =>
      simp only at h
      cases hr : RunFrom rest r.hostedAfter r.targetAfter with
      | none => rw [hr] at h; exact absurd h (by simp)
      | some q' =>
        obtain ⟨rs, ret'⟩ := q'
        rw [hr] at h
        simp only [Option.some.injEq, Prod.mk.injEq] at h
        simp [← h.1]

theorem RunFrom_returned_length (inputs : List IterInput) (S : InstanceSet) (t : Int)
    (recs : List IterRecord) (h : RunFrom inputs S t = some (recs, true)) :
    1 ≤ recs.length := by
  cases inputs with
  | nil => simp [RunFrom] at h
  | cons i rest => exact RunFrom_cons_length i rest S t recs true h

/-- Control flow of an iteration of `Run` whose pass completes with result `p`, after any
inputs `pre` that left the loop alive: if the hosted set is empty right after the pass, `Run`
returns in this iteration, whatever inputs follow, without a call of the blocking wait; if it
is not empty, the iteration makes exactly one call of the wait and the loop is still running
after it.  On an empty hosted set `Run` returns in its first iteration, having drained no
engine and waited for nothing. -/
theorem completed_iteration_control_flow (start : Int) (pre : List IterInput) (i : IterInput)
    (post : List IterInput) (S : InstanceSet) (recs : List IterRecord) (p : PassResult)
    (hpre : Run start pre S = some (recs, false))
    (hp : ProcessFlutterEvents i.env (stateAfter S start recs).1 = some p) :
    (p.hosted = [] →
      Run start (pre ++ i :: post) S
        = some (recs ++ [⟨p.drained, p.hosted,
            adoptTarget (stateAfter S start recs).2 p.next_event_time, []⟩], true))
    ∧ (p.hosted ≠ [] →
      Run start (pre ++ [i]) S
        = some (recs ++ [⟨p.drained, p.hosted,
            adoptTarget (stateAfter S start recs).2 p.next_event_time,
            [waitTimeout (adoptTarget (stateAfter S start recs).2 p.next_event_time) i.now]⟩],
          false))
    ∧ ((∃ rs, Run start (pre ++ i :: post) S = some (rs, true) ∧ rs.length = pre.length + 1)
        ↔ p.hosted = [])
    ∧ (∀ (t0 : Int) (j : IterInput) (rest : List IterInput),
        Run t0 (j :: rest) [] = some ([⟨[], [], t0, []⟩], true)) := by
  unfold Run at *
  have hlen := RunFrom_length pre S start recs hpre
  have hempty : p.hosted = [] →
      RunFrom (pre ++ i :: post) S start
        = some (recs ++ [⟨p.drained, p.hosted,
            adoptTarget (stateAfter S start recs).2 p.next_event_time, []⟩], true) := by
    intro he
    rw [RunFrom_append pre (i :: post) S start recs hpre,
      RunFrom_cons_of_return i post _ _ _ (RunIter_of_pass_empty i _ _ p hp he)]
  refine ⟨hempty, ?_, ⟨?_, ?_⟩, ?_⟩
  · intro he
    rw [RunFrom_append pre [i] S start recs hpre,
      RunFrom_cons_of_keep i [] _ _ _ (RunIter_of_pass_nonempty i _ _ p hp he)]
    rfl
  · rintro ⟨rs, hrs, hl⟩
    by_contra he
    rw [RunFrom_append pre (i :: post) S start recs hpre,
      RunFrom_cons_of_keep i post _ _ _ (RunIter_of_pass_nonempty i _ _ p hp he)] at hrs
    cases hr : RunFrom post p.hosted
        (adoptTarget (stateAfter S start recs).2 p.next_event_time) with
    | none => rw [hr] at hrs; exact absurd hrs (by simp)
    | some q =>
      obtain ⟨rs', ret⟩ := q
      rw [hr] at hrs
      simp only [Option.some.injEq, Prod.mk.injEq] at hrs
      obtain ⟨h1, h2⟩ := hrs
      subst h2
      have := RunFrom_returned_length post _ _ rs' hr
      rw [← h1] at hl
      simp only [List.length_append, List.length_cons] at hl
      omega
  · intro he
    exact ⟨_, hempty he, by simp [hlen]⟩
  · intro t0 j rest
    exact RunFrom_cons_of_return j rest [] t0 _
      (RunIter_of_pass_empty j [] t0 ⟨[], none, []⟩ rfl rfl)

/-- With defined behaviour `Run` returns only when it is started on the empty set: a
completed pass never empties a non-empty set. -/
theorem Run_returns_only_from_empty_set (inputs : List IterInput) (S : InstanceSet) (t : Int)
    (recs : List IterRecord) (h : RunFrom inputs S t = some (recs, true)) : S = [] := by
  induction inputs generalizing S t recs with
  | nil => simp [RunFrom] at h
  | cons i rest ih =>
    cases hi : RunIter i S t with
    | none => rw [RunFrom_cons_of_none i rest S t hi] at h; exact absurd h (by simp)
    | some q =>
      obtain ⟨r, keep⟩ := q
      obtain ⟨p, hp, -, hh, -, hf, hk⟩ := RunIter_some i S t r keep hi
      cases keep with
      | false =>
        by_contra hS
        exact completed_pass_keeps_set_nonempty i.env S p hp hS (hf rfl).1
      | true =>
        rw [RunFrom_cons_of_keep i rest S t r hi] at h
        cases hr : RunFrom rest r.hostedAfter r.targetAfter with
        | none => rw [hr] at h; exact absurd h (by simp)
        | some q' =>
          obtain ⟨rs, ret⟩ := q'
          rw [hr] at h
          simp only [Option.some.injEq, Prod.mk.injEq] at h
          obtain ⟨-, h2⟩ := h
          subst h2
          have := ih _ _ _ hr
          rw [hh] at this
          exact absurd this (hk rfl).1

/-- C1. One hosted engine 1 is idle in the first iteration of `Run` and unregisters itself
inside its own `ProcessMessages` in the second.  The first iteration waits once and the loop
goes on; the erase of the second iteration empties the hosted set, but the pass is left with
an iterator to the erased node and has no defined result, so `Run` has no defined return in
that iteration. -/
theorem run_self_unregister_has_no_return :
    RunIter (idleInput 0) [1] 0 = some (⟨[1], [1], 0, [0]⟩, true)
    ∧ (selfUnregisterEnv 1).unregisters = [1]
    ∧ UnregisterFlutterInstance [1] 1 = []
    ∧ RunIter ⟨selfUnregisterEnv, 0⟩ [1] 0 = none
    ∧ Run 0 [idleInput 0, ⟨selfUnregisterEnv, 0⟩] [1] = none := by
  decide

/-- C10. In an iteration of `Run` in which no callback unregisters a hosted engine, whatever
the carried-over wake target and the replies are, `ProcessMessages` is called on the engines
of the hosted set in order, exactly once on each hosted engine and on no other engine, and
the hosted set after the iteration is the hosted set before it. -/
theorem drains_every_hosted_engine_once (i : IterInput) (S : InstanceSet) (t : Int)
    (hS : WellFormed S) (hu : ∀ e ∈ S, ∀ x ∈ (i.env e).unregisters, x ∉ S) :
    ∃ r keep, RunIter i S t = some (r, keep) ∧ r.drained = S ∧ r.hostedAfter = S
      ∧ ∀ e : Engine, r.drained.count e = if e ∈ S then 1 else 0 := by
  have hp := ProcessFlutterEvents_no_mutation i.env S hu
  have hc : ∀ e : Engine, S.count e = if e ∈ S then 1 else 0 := by
    intro e
    have hnd : S.Nodup := List.Sorted.nodup hS
    split_ifs with he
    · exact List.count_eq_one_of_mem hnd he
    · exact List.count_eq_zero_of_not_mem he
  by_cases he : S = []
  · exact ⟨_, _, RunIter_of_pass_empty i S t _ hp he, rfl, rfl, hc⟩
  · exact ⟨_, _, RunIter_of_pass_nonempty i S t _ hp he, rfl, rfl, hc⟩

/-- Instance of C10 at the hosted set of engines 1 and 2, both idle. -/
theorem drains_every_hosted_engine_once_witness :
    WellFormed [1, 2] ∧ (∀ e ∈ [1, 2], ∀ x ∈ ((idleInput 7).env e).unregisters, x ∉ [1, 2])
    ∧ ∃ r keep, RunIter (idleInput 7) [1, 2] 3 = some (r, keep) ∧ r.drained = [1, 2]
      ∧ r.hostedAfter = [1, 2]
      ∧ ∀ e : Engine, r.drained.count e = if e ∈ [1, 2] then 1 else 0 :=
  ⟨by decide, by simp [idleInput, idleReply],
    drains_every_hosted_engine_once (idleInput 7) [1, 2] 3 (by decide)
      (by simp [idleInput, idleReply])⟩

/-- No completed pass contains a drained engine that unregistered itself. -/
theorem completed_pass_has_no_self_unregister (env : Engine → Reply) (S : InstanceSet)
    (p : PassResult) (h : ProcessFlutterEvents env S = some p) :
    ∀ e ∈ p.drained, e ∉ (env e).unregisters :=
  (ProcessFlutterEvents_some env S p h).2.2.1

/-- C6. With the single hosted engine 1 unregistering itself inside its own
`ProcessMessages`, the range-for of `ProcessFlutterEvents` is left with an iterator to an
erased node: the pass has no defined result, and neither has `Run`. -/
theorem self_unregister_invalidates_iterator :
    ProcessFlutterEvents selfUnregisterEnv [1] = none
    ∧ Run 0 [⟨selfUnregisterEnv, 0⟩] [1] = none := by
  constructor <;> decide

/-- C7, as stated, fails: for the report `2^63` at clock reading 0 the computed wait is 0,
not `max(0, 2^63 - 0)`. -/
theorem wait_duration_high_report_counterexample :
    wait_duration ⟨9223372036854775808, [], 0, 0⟩ = 0
    ∧ max 0 (((9223372036854775808 : Nat) : Int) - 0) = 9223372036854775808
    ∧ wait_duration ⟨9223372036854775808, [], 0, 0⟩
        ≠ max 0 (((9223372036854775808 : Nat) : Int) - 0) := by
  decide

/-- C7, amended. For a non-zero report `T < 2^63` and a clock reading `N` of the signed
64-bit range with `T - N < 2^63` (so for every `0 ≤ N < 2^63`): neither cast nor the
subtraction of line 59 leaves the signed 64-bit range, and the wait computed in
`ProcessFlutterEvents` is `max(0, T - N)` over the integers, a negative difference giving
0. -/
theorem wait_duration_clamped_difference (T : Nat) (N : Int) (us : List Engine) (n2 : Int)
    (hT : T ≠ 0) (hT' : (T : Int) < 2 ^ 63) (hN : -2 ^ 63 ≤ N) (hN' : N < 2 ^ 63)
    (hd : (T : Int) - N < 2 ^ 63) :
    wait_duration ⟨T, us, N, n2⟩ = max 0 ((T : Int) - N)
    ∧ wrap64 (T : Int) = (T : Int) ∧ wrap64 N = N
    ∧ wrap64 (wrap64 (T : Int) - wrap64 N) = (T : Int) - N := by
  have hw := wait_time_of_range T N hT' hN hN' hd
  refine ⟨?_, wrap64_of_range _ (by omega) hT', wrap64_of_range N hN hN', hw⟩
  unfold wait_duration
  simp only [ne_eq, hT, not_false_eq_true, if_true]
  rw [hw]
  split_ifs with hpos
  · exact (max_eq_right (by omega)).symm
  · exact (max_eq_left (by omega)).symm

/-- Instance of C7, amended, at the report 1000 and the clock reading 400. -/
theorem wait_duration_clamped_difference_witness :
    (1000 : Nat) ≠ 0 ∧ (((1000 : Nat) : Int) < 2 ^ 63) ∧ (-2 ^ 63 ≤ (400 : Int))
    ∧ ((400 : Int) < 2 ^ 63) ∧ (((1000 : Nat) : Int) - 400 < 2 ^ 63)
    ∧ wait_duration ⟨1000, [], 400, 400⟩ = max 0 (((1000 : Nat) : Int) - 400) :=
  ⟨by decide, by decide, by decide, by decide, by decide,
    (wait_duration_clamped_difference 1000 400 [] 400 (by decide) (by decide) (by decide)
      (by decide) (by decide)).1⟩

/-- C8, as stated, fails: with the wake target `2^32` ms after the clock sample, the
remaining time is `4294967296` ms but the timeout handed to the wait is 0. -/
theorem wait_timeout_far_target_counterexample :
    RunIter (idleInput 0) [1] 4294967296000000
      = some (⟨[1], [1], 4294967296000000, [0]⟩, true)
    ∧ max 0 (Int.tdiv (4294967296000000 - 0) 1000000) = 4294967296 := by
  decide

/-- C8, amended. In every iteration of `Run` that does not return, exactly one timeout is
handed to the blocking wait; it is below `2^32`; when the difference of the wake target and
the clock sample fits the signed 64-bit range, it is that difference truncated to whole
milliseconds, clamped below at 0, and then reduced modulo `2^32`: it is the clamped
millisecond count itself when that count is below `2^32`, and it is 0 when the target is
not after the clock sample. -/
theorem wait_timeout_clamped_mod_dword (i : IterInput) (S : InstanceSet) (t : Int)
    (r : IterRecord) (h : RunIter i S t = some (r, true))
    (h1 : -2 ^ 63 ≤ r.targetAfter - i.now) (h2 : r.targetAfter - i.now < 2 ^ 63) :
    r.waits = [waitTimeout r.targetAfter i.now]
    ∧ waitTimeout r.targetAfter i.now < 2 ^ 32
    ∧ (waitTimeout r.targetAfter i.now : Int)
        = (max 0 (Int.tdiv (r.targetAfter - i.now) 1000000)) % 2 ^ 32
    ∧ (max 0 (Int.tdiv (r.targetAfter - i.now) 1000000) < 2 ^ 32 →
        (waitTimeout r.targetAfter i.now : Int)
          = max 0 (Int.tdiv (r.targetAfter - i.now) 1000000))
    ∧ (r.targetAfter ≤ i.now → waitTimeout r.targetAfter i.now = 0) := by
  obtain ⟨p, -, -, -, -, -, hk⟩ := RunIter_some i S t r true h
  have hw := waitTimeout_of_range r.targetAfter i.now h1 h2
  refine ⟨(hk rfl).2, waitTimeout_lt _ _, hw, ?_, ?_⟩
  · intro hlt
    rw [hw]
    apply Int.emod_eq_of_lt
    · exact le_max_left _ _
    · exact hlt
  · intro hle
    exact waitTimeout_of_le _ _ hle h1

/-- Instance of C8, amended: target 2.5 ms after the clock sample, timeout 2 ms. -/
theorem wait_timeout_clamped_mod_dword_witness :
    RunIter (idleInput 0) [1] 2500000
      = some (⟨[1], [1], 2500000, [2]⟩, true)
    ∧ (-2 ^ 63 ≤ (2500000 : Int) - 0) ∧ ((2500000 : Int) - 0 < 2 ^ 63)
    ∧ (waitTimeout 2500000 0 : Int) = (max 0 (Int.tdiv (2500000 - 0) 1000000)) % 2 ^ 32 :=
  ⟨by decide, by decide, by decide,
    (wait_timeout_clamped_mod_dword (idleInput 0) [1] 2500000 ⟨[1], [1], 2500000, [2]⟩
      (by decide) (by decide) (by decide)).2.2.1⟩

theorem pass_none_of_all_sentinel (env : Engine → Reply) (S : InstanceSet) (p : PassResult)
    (h : ProcessFlutterEvents env S = some p)
    (hz : ∀ e ∈ p.drained, wait_duration (env e) = nanosecondsMax) :
    p.next_event_time = none := by
  rw [(ProcessFlutterEvents_some env S p h).2.1]
  apply (foldl_update_none_iff _ none).mpr
  refine ⟨rfl, ?_⟩
  intro r hr
  obtain ⟨e, he, rfl⟩ := List.mem_map.mp hr
  exact hz e he

/-- The result of a completed pass, when present, is the least wake instant among the
drained engines whose wait is not the sentinel. -/
theorem pass_some_is_min (env : Engine → Reply) (S : InstanceSet) (p : PassResult)
    (h : ProcessFlutterEvents env S = some p) (m : Int) (hm : p.next_event_time = some m) :
    (∃ e ∈ p.drained, wait_duration (env e) ≠ nanosecondsMax ∧ m = event_time (env e))
    ∧ ∀ e ∈ p.drained, wait_duration (env e) ≠ nanosecondsMax → m ≤ event_time (env e) := by
  rw [(ProcessFlutterEvents_some env S p h).2.1] at hm
  obtain ⟨h1, -, h3⟩ := foldl_update_some _ none m hm
  constructor
  · rcases h1 with h1 | ⟨r, hr, hw, he⟩
    · exact absurd h1 (by simp)
    · obtain ⟨e, he', rfl⟩ := List.mem_map.mp hr
      exact ⟨e, he', hw, he.symm⟩
  · intro e he hw
    exact h3 (env e) (List.mem_map.mpr ⟨e, he, rfl⟩) hw

theorem pass_some_of_not_sentinel (env : Engine → Reply) (S : InstanceSet) (p : PassResult)
    (h : ProcessFlutterEvents env S = some p) (e : Engine) (he : e ∈ p.drained)
    (hw : wait_duration (env e) ≠ nanosecondsMax) : ∃ m, p.next_event_time = some m := by
  cases hn : p.next_event_time with
  | some m => exact ⟨m, rfl⟩
  | none =>
    rw [(ProcessFlutterEvents_some env S p h).2.1] at hn
    have := ((foldl_update_none_iff _ none).mp hn).2 (env e) (List.mem_map.mpr ⟨e, he, rfl⟩)
    exact absurd this hw

/-- A carried-over target `2^32 - 1` ms after the clock sample yields the timeout
`INFINITE`. -/
theorem waitTimeout_infinite_example : waitTimeout 4294967295000000 0 = INFINITE := by
  decide

/-- C4, as stated, fails: engine 1 reports 0 and engine 2 reports `T2 = 2^63 - 1` with the
clock at 0.  The wait computed for engine 2 equals `nanoseconds::max()`, which the pass reads
as "no pending task": the wake target stays the carried-over 5 and is not the instant
`2^63 - 1` derived from `T2`. -/
theorem sticky_target_sentinel_counterexample :
    (sentinelEnv 1).next_task_time = 0
    ∧ (sentinelEnv 2).next_task_time = 9223372036854775807
    ∧ RunIter ⟨sentinelEnv, 0⟩ [1, 2] 5 = some (⟨[1, 2], [1, 2], 5, [0]⟩, true)
    ∧ event_time (sentinelEnv 2) = 9223372036854775807 := by
  decide

/-- C4, amended. In every completed iteration of `Run`: if no drained engine returns a
non-zero timestamp, the wake target after the iteration is the wake target before it; the
target changes only to the least of the wake instants computed from this iteration's non-zero
reports, and it is that least instant whenever some computed wait is not the sentinel.  So
when one of two drained engines reports 0 and the other a timestamp whose computed wait is
not the sentinel `2^63 - 1`, the target after the iteration is the wake instant derived from
that timestamp. -/
theorem wake_target_sticky (i : IterInput) (S : InstanceSet) (t : Int) (r : IterRecord)
    (keep : Bool) (h : RunIter i S t = some (r, keep)) :
    ((∀ e ∈ r.drained, (i.env e).next_task_time = 0) → r.targetAfter = t)
    ∧ (r.targetAfter ≠ t →
        (∃ e ∈ r.drained, (i.env e).next_task_time ≠ 0
          ∧ wait_duration (i.env e) ≠ nanosecondsMax ∧ r.targetAfter = event_time (i.env e))
        ∧ ∀ e ∈ r.drained, wait_duration (i.env e) ≠ nanosecondsMax →
            r.targetAfter ≤ event_time (i.env e))
    ∧ ((∃ e ∈ r.drained, wait_duration (i.env e) ≠ nanosecondsMax) →
        (∃ e ∈ r.drained, (i.env e).next_task_time ≠ 0
          ∧ wait_duration (i.env e) ≠ nanosecondsMax ∧ r.targetAfter = event_time (i.env e))
        ∧ ∀ e ∈ r.drained, wait_duration (i.env e) ≠ nanosecondsMax →
            r.targetAfter ≤ event_time (i.env e))
    ∧ (∀ a b : Engine, (r.drained = [a, b] ∨ r.drained = [b, a]) →
        (i.env a).next_task_time = 0 → wait_duration (i.env b) ≠ nanosecondsMax →
        r.targetAfter = event_time (i.env b)) := by
  obtain ⟨p, hp, hd, -, ht, -, -⟩ := RunIter_some i S t r keep h
  rw [hd]
  have hsent : (∀ e ∈ p.drained, wait_duration (i.env e) = nanosecondsMax) →
      r.targetAfter = t := by
    intro hz
    rw [ht, pass_none_of_all_sentinel i.env S p hp hz]
    rfl
  have hmin : (∃ e ∈ p.drained, wait_duration (i.env e) ≠ nanosecondsMax) →
      (∃ e ∈ p.drained, (i.env e).next_task_time ≠ 0
          ∧ wait_duration (i.env e) ≠ nanosecondsMax ∧ r.targetAfter = event_time (i.env e))
        ∧ ∀ e ∈ p.drained, wait_duration (i.env e) ≠ nanosecondsMax →
            r.targetAfter ≤ event_time (i.env e) := by
    rintro ⟨e, he, hw⟩
    obtain ⟨m, hm⟩ := pass_some_of_not_sentinel i.env S p hp e he hw
    have htm : r.targetAfter = m := by rw [ht, hm]; rfl
    obtain ⟨⟨x, hx, hxw, hxe⟩, hle⟩ := pass_some_is_min i.env S p hp m hm
    rw [htm]
    refine ⟨⟨x, hx, ?_, hxw, hxe⟩, hle⟩
    intro h0
    exact hxw (wait_duration_zero_report _ h0)
  refine ⟨?_, ?_, hmin, ?_⟩
  · intro hz
    exact hsent (fun e he => wait_duration_zero_report _ (hz e he))
  · intro hne
    apply hmin
    by_contra hall
    push_neg at hall
    exact hne (hsent hall)
  · intro a b hab ha hb
    have hbmem : b ∈ p.drained := by rcases hab with h' | h' <;> simp [h']
    obtain ⟨⟨x, hx, hx0, -, hxe⟩, -⟩ := hmin ⟨b, hbmem, hb⟩
    have hxb : x = b := by
      rcases hab with h' | h' <;>
        · rw [h'] at hx
          simp only [List.mem_cons, List.mem_singleton, List.not_mem_nil, or_false] at hx
          rcases hx with rfl | rfl
          · first | exact absurd ha hx0 | rfl
          · first | rfl | exact absurd ha hx0
    rw [hxe, hxb]

/-- Instance of C4, amended: engine 1 reports 0 and engine 2 reports 500 at clock 100; the
target after the iteration is the instant 500 derived from that report. -/
theorem wake_target_sticky_witness :
    RunIter ⟨oneTimerEnv, 100⟩ [1, 2] 7 = some (⟨[1, 2], [1, 2], 500, [0]⟩, true)
    ∧ (oneTimerEnv 1).next_task_time = 0
    ∧ wait_duration (oneTimerEnv 2) ≠ nanosecondsMax
    ∧ (500 : Int) = event_time (oneTimerEnv 2) :=
  ⟨by decide, by decide, by decide,
    (wake_target_sticky ⟨oneTimerEnv, 100⟩ [1, 2] 7 ⟨[1, 2], [1, 2], 500, [0]⟩ true
      (by decide)).2.2.2 1 2 (Or.inl rfl) (by decide) (by decide)⟩

/-- With the clock reading `N` at both samples and a report `N ≤ T < 2^63 - 1`, the wake
instant computed for the engine is `T` itself. -/
theorem event_time_of_frozen_clock (r : Reply) (N : Int) (h1 : r.now1 = N) (h2 : r.now2 = N)
    (hN : 0 ≤ N) (hT : r.next_task_time ≠ 0) (hle : N ≤ (r.next_task_time : Int))
    (hlt : (r.next_task_time : Int) < 2 ^ 63 - 1) :
    wait_duration r ≠ nanosecondsMax ∧ event_time r = (r.next_task_time : Int) := by
  have hw : wait_duration r = (r.next_task_time : Int) - N := by
    unfold wait_duration
    simp only [ne_eq, hT, not_false_eq_true, if_true]
    rw [h1, wait_time_of_range _ N (by omega) (by omega) (by omega) (by omega)]
    split_ifs with hpos
    · rfl
    · omega
  constructor
  · rw [hw]
    unfold nanosecondsMax
    omega
  · unfold event_time
    rw [hw, h2, wrap64_of_range _ (by omega) (by omega)]
    omega

/-- C3, as stated, fails: a single engine reports the timestamp 5 while the clock reads 100;
the pass returns the instant 100, not the reported 5. -/
theorem pass_result_overdue_counterexample :
    ProcessFlutterEvents overdueEnv [1] = some ⟨[1], some 100, [1]⟩
    ∧ (overdueEnv 1).next_task_time = 5
    ∧ (100 : Int) ≠ ((overdueEnv 1).next_task_time : Int) := by
  decide

/-- C3, amended. For every completed pass: if every drained engine returned 0 the result is
absent; and when no non-zero report has a computed wait equal to the sentinel
`nanoseconds::max()`, the result is absent only if every drained engine returned 0, and
otherwise it is the least of the wake instants `now + max(0, T - now)` computed for the
engines that returned non-zero.  When the clock reads the same `N ≥ 0` at every sample of the
pass and every non-zero report `T` has `N ≤ T < 2^63 - 1`: the result is absent if and only
if every drained engine returned 0, otherwise it is the least non-zero timestamp reported,
and for two drained engines reporting `Ta ≤ Tb` the target `Run` adopts is `Ta` in either
visiting order. -/
theorem pass_result_is_min_wake_instant (env : Engine → Reply) (S : InstanceSet)
    (p : PassResult) (h : ProcessFlutterEvents env S = some p) :
    ((∀ e ∈ p.drained, (env e).next_task_time = 0) → p.next_event_time = none)
    ∧ ((∀ e ∈ p.drained, (env e).next_task_time ≠ 0 →
          wait_duration (env e) ≠ nanosecondsMax) →
        (p.next_event_time = none ↔ ∀ e ∈ p.drained, (env e).next_task_time = 0)
        ∧ ∀ m, p.next_event_time = some m →
            (∃ e ∈ p.drained, (env e).next_task_time ≠ 0 ∧ m = event_time (env e))
            ∧ ∀ e ∈ p.drained, (env e).next_task_time ≠ 0 → m ≤ event_time (env e))
    ∧ (∀ N : Int, 0 ≤ N →
        (∀ e ∈ p.drained, (env e).now1 = N ∧ (env e).now2 = N
          ∧ ((env e).next_task_time ≠ 0 →
              N ≤ ((env e).next_task_time : Int)
              ∧ ((env e).next_task_time : Int) < 2 ^ 63 - 1)) →
        (p.next_event_time = none ↔ ∀ e ∈ p.drained, (env e).next_task_time = 0)
        ∧ (∀ m, p.next_event_time = some m →
            (∃ e ∈ p.drained, (env e).next_task_time ≠ 0
              ∧ m = ((env e).next_task_time : Int))
            ∧ ∀ e ∈ p.drained, (env e).next_task_time ≠ 0 →
                m ≤ ((env e).next_task_time : Int))
        ∧ (∀ (a b : Engine) (t : Int), (p.drained = [a, b] ∨ p.drained = [b, a]) →
            (env a).next_task_time ≠ 0 → (env b).next_task_time ≠ 0 →
            (env a).next_task_time ≤ (env b).next_task_time →
            adoptTarget t p.next_event_time = ((env a).next_task_time : Int))) := by
  have hspec := ProcessFlutterEvents_some env S p h
  have hzero : (∀ e ∈ p.drained, (env e).next_task_time = 0) → p.next_event_time = none :=
    fun hz => pass_none_of_all_sentinel env S p h
      (fun e he => wait_duration_zero_report _ (hz e he))
  have hnone : p.next_event_time = none
      ↔ ∀ e ∈ p.drained, wait_duration (env e) = nanosecondsMax := by
    constructor
    · intro hn e he
      rw [hspec.2.1] at hn
      exact ((foldl_update_none_iff _ none).mp hn).2 (env e) (List.mem_map.mpr ⟨e, he, rfl⟩)
    · exact pass_none_of_all_sentinel env S p h
  refine ⟨hzero, ?_, ?_⟩
  · intro hns
    refine ⟨⟨?_, hzero⟩, ?_⟩
    · intro hn e he
      by_contra hT
      exact hns e he hT (hnone.mp hn e he)
    · intro m hm
      obtain ⟨⟨x, hx, hxw, hxe⟩, hle⟩ := pass_some_is_min env S p h m hm
      refine ⟨⟨x, hx, fun h0 => hxw (wait_duration_zero_report _ h0), hxe⟩, ?_⟩
      intro e he hT
      exact hle e he (hns e he hT)
  intro N hN hfr
  have hev : ∀ e ∈ p.drained, (env e).next_task_time ≠ 0 →
      wait_duration (env e) ≠ nanosecondsMax
        ∧ event_time (env e) = ((env e).next_task_time : Int) := by
    intro e he hT
    obtain ⟨h1, h2, h3⟩ := hfr e he
    exact event_time_of_frozen_clock (env e) N h1 h2 hN hT (h3 hT).1 (h3 hT).2
  have hsome : ∀ m, p.next_event_time = some m →
      (∃ e ∈ p.drained, (env e).next_task_time ≠ 0 ∧ m = ((env e).next_task_time : Int))
      ∧ ∀ e ∈ p.drained, (env e).next_task_time ≠ 0 →
          m ≤ ((env e).next_task_time : Int) := by
    intro m hm
    obtain ⟨⟨x, hx, hxw, hxe⟩, hle⟩ := pass_some_is_min env S p h m hm
    have hx0 : (env x).next_task_time ≠ 0 := fun h0 => hxw (wait_duration_zero_report _ h0)
    refine ⟨⟨x, hx, hx0, ?_⟩, ?_⟩
    · rw [hxe, (hev x hx hx0).2]
    · intro e he hT
      have := hle e he (hev e he hT).1
      rw [(hev e he hT).2] at this
      exact this
  refine ⟨?_, hsome, ?_⟩
  · rw [hnone]
    constructor
    · intro hz e he
      by_contra hT
      exact (hev e he hT).1 (hz e he)
    · intro hz e he
      exact wait_duration_zero_report _ (hz e he)
  · intro a b t hab ha hb hle
    have hamem : a ∈ p.drained := by rcases hab with h' | h' <;> simp [h']
    have hbmem : b ∈ p.drained := by rcases hab with h' | h' <;> simp [h']
    obtain ⟨m, hm⟩ := pass_some_of_not_sentinel env S p h a hamem (hev a hamem ha).1
    obtain ⟨⟨x, hx, -, hxe⟩, hmle⟩ := hsome m hm
    have hma := hmle a hamem ha
    have hxab : x = a ∨ x = b := by
      rcases hab with h' | h' <;>
        · rw [h'] at hx
          simp only [List.mem_cons, List.mem_singleton, List.not_mem_nil, or_false] at hx
          tauto
    have hmeq : m = ((env a).next_task_time : Int) := by
      rcases hxab with rfl | rfl
      · exact hxe
      · have : ((env a).next_task_time : Int) ≤ ((env x).next_task_time : Int) := by
          exact_mod_cast hle
        omega
    rw [hm]
    exact hmeq

/-- Instance of C3, amended: engines 1 and 2 report 300 and 500 with the clock at 100, and
the target adopted is 300. -/
theorem pass_result_is_min_wake_instant_witness :
    ProcessFlutterEvents twoTimersEnv [1, 2] = some ⟨[1, 2], some 300, [1, 2]⟩
    ∧ (0 : Int) ≤ 100
    ∧ (∀ e ∈ [1, 2], (twoTimersEnv e).now1 = 100 ∧ (twoTimersEnv e).now2 = 100
        ∧ ((twoTimersEnv e).next_task_time ≠ 0 →
            (100 : Int) ≤ ((twoTimersEnv e).next_task_time : Int)
            ∧ ((twoTimersEnv e).next_task_time : Int) < 2 ^ 63 - 1))
    ∧ adoptTarget 0 (some 300) = ((twoTimersEnv 1).next_task_time : Int) :=
  ⟨by decide, by decide, by decide,
    ((pass_result_is_min_wake_instant twoTimersEnv [1, 2] ⟨[1, 2], some 300, [1, 2]⟩
      (by decide)).2.2 100 (by decide) (by decide)).2.2 1 2 0 (Or.inl rfl) (by decide)
      (by decide) (by decide)⟩

/-- C5, as stated, fails: engine 1 reports the past timestamp 5 (clock at 10), engine 2
reports `2^63 - 2` with the clock advancing from 10 to 20 between its two samples, and `Run`
reads the clock as 30.  The sum `now + wait_duration` computed for engine 2 leaves the signed
64-bit range, and the timeout handed to the blocking wait is 2077252342 ms, not 0. -/
theorem past_report_overflow_counterexample :
    (overflowEnv 1).next_task_time = 5 ∧ (overflowEnv 1).now1 = 10
    ∧ RunIter ⟨overflowEnv, 30⟩ [1, 2] 0
        = some (⟨[1, 2], [1, 2], -9223372036854775800, [2077252342]⟩, true) := by
  decide

/-- C5, amended. In an iteration of `Run` that does not return, if a drained engine reports a
non-zero timestamp not after the clock value sampled for it, the clock does not go backwards
up to the sample of `Run` (all readings in `[0, 2^63)`), and for every drained engine with a
pending task the sum `now + wait_duration` of line 71 stays below `2^63`, then the timeout
handed to the blocking wait is 0, whatever the other engines report. -/
theorem past_report_gives_zero_wait (i : IterInput) (S : InstanceSet) (t : Int)
    (r : IterRecord) (h : RunIter i S t = some (r, true)) (e : Engine) (he : e ∈ r.drained)
    (hT : (i.env e).next_task_time ≠ 0)
    (hpast : ((i.env e).next_task_time : Int) ≤ (i.env e).now1)
    (hclock : (i.env e).now1 < 2 ^ 63)
    (hmono : (i.env e).now2 ≤ i.now) (hnow : i.now < 2 ^ 63)
    (hrange : ∀ x ∈ r.drained, wait_duration (i.env x) ≠ nanosecondsMax →
      0 ≤ (i.env x).now2 ∧ (i.env x).now2 + wait_duration (i.env x) < 2 ^ 63) :
    r.waits = [0] := by
  obtain ⟨p, hp, hd, -, ht, -, hk⟩ := RunIter_some i S t r true h
  rw [hd] at he hrange
  have hwt : wait_time (i.env e).next_task_time (i.env e).now1
      = ((i.env e).next_task_time : Int) - (i.env e).now1 :=
    wait_time_of_range _ _ (by omega) (by omega) hclock (by omega)
  have hw : wait_duration (i.env e) = 0 := by
    unfold wait_duration
    simp only [ne_eq, hT, not_false_eq_true, if_true]
    rw [hwt, if_neg (by omega)]
  have hwne : wait_duration (i.env e) ≠ nanosecondsMax := by
    rw [hw]; unfold nanosecondsMax; omega
  have hre := hrange e he hwne
  have hee : event_time (i.env e) = (i.env e).now2 := by
    unfold event_time
    rw [hw, wrap64_of_range _ (by omega) (by omega)]
    omega
  obtain ⟨m, hm⟩ := pass_some_of_not_sentinel i.env S p hp e he hwne
  obtain ⟨⟨x, hx, hxw, hxe⟩, hle⟩ := pass_some_is_min i.env S p hp m hm
  have hme : m ≤ (i.env e).now2 := hee ▸ hle e he hwne
  have hrx := hrange x hx hxw
  have hm0 : 0 ≤ m := by
    rw [hxe]
    unfold event_time
    have := wait_duration_nonneg (i.env x)
    rw [wrap64_of_range _ (by omega) hrx.2]
    omega
  have htm : r.targetAfter = m := by rw [ht, hm]; rfl
  rw [(hk rfl).2, htm, waitTimeout_of_le m i.now (by omega) (by omega)]

/-- Instance of C5, amended: engines 1 and 2 both report the overdue timestamp 5 at clock
100, `Run` reads the clock as 120, and the timeout is 0. -/
theorem past_report_gives_zero_wait_witness :
    RunIter ⟨overdueEnv, 120⟩ [1, 2] 0 = some (⟨[1, 2], [1, 2], 100, [0]⟩, true)
    ∧ (1 : Engine) ∈ [1, 2]
    ∧ (overdueEnv 1).next_task_time ≠ 0
    ∧ ((overdueEnv 1).next_task_time : Int) ≤ (overdueEnv 1).now1
    ∧ (overdueEnv 1).now1 < 2 ^ 63
    ∧ (overdueEnv 1).now2 ≤ 120 ∧ (120 : Int) < 2 ^ 63
    ∧ (∀ x ∈ [1, 2], wait_duration (overdueEnv x) ≠ nanosecondsMax →
        0 ≤ (overdueEnv x).now2 ∧ (overdueEnv x).now2 + wait_duration (overdueEnv x) < 2 ^ 63)
    ∧ (⟨[1, 2], [1, 2], 100, [0]⟩ : IterRecord).waits = [0] :=
  ⟨by decide, by decide, by decide, by decide, by decide, by decide, by decide, by decide,
    past_report_gives_zero_wait ⟨overdueEnv, 120⟩ [1, 2] 0 ⟨[1, 2], [1, 2], 100, [0]⟩
      (by decide) 1 (by decide) (by decide) (by decide) (by decide) (by decide) (by decide)
      (by decide)⟩

end RunLoop
